import Mathlib

/-!
Verification of the Black-Scholes option pricer and sensitivity engine.

The two core functions (`black_scholes` and `option_greeks`) are shallowly
embedded over the real numbers; the statistics library's standard normal
CDF and PDF are embedded as `normCdf` and `normPdf`, with the CDF defined
as the Lebesgue integral of the PDF over `Iic x`.  The kind-dispatch error
(`ValueError` in the reference) is embedded as `Except.error`.
-/

open MeasureTheory Set

/-- Standard normal probability density function, the statistics library's
`norm.pdf`. -/
noncomputable def normPdf (x : ℝ) : ℝ :=
  (Real.sqrt (2 * Real.pi))⁻¹ * Real.exp (-(x ^ 2) / 2)

/-- Standard normal cumulative distribution function, the statistics
library's `norm.cdf`. -/
noncomputable def normCdf (x : ℝ) : ℝ :=
  ∫ t in Iic x, normPdf t

lemma sqrt_two_pi_pos : 0 < Real.sqrt (2 * Real.pi) :=
  Real.sqrt_pos.mpr (by positivity)

lemma normPdf_pos (x : ℝ) : 0 < normPdf x :=
  mul_pos (inv_pos.mpr sqrt_two_pi_pos) (Real.exp_pos _)

lemma normPdf_even (x : ℝ) : normPdf (-x) = normPdf x := by
  simp [normPdf]

lemma continuous_normPdf : Continuous normPdf := by
  unfold normPdf
  fun_prop

lemma normPdf_eq (x : ℝ) :
    normPdf x = (Real.sqrt (2 * Real.pi))⁻¹ * Real.exp (-(1 / 2) * x ^ 2) := by
  unfold normPdf
  ring_nf

lemma integrable_normPdf : Integrable normPdf := by
  have h : Integrable fun x : ℝ => Real.exp (-(1 / 2 : ℝ) * x ^ 2) :=
    integrable_exp_neg_mul_sq (by norm_num)
  have h2 := h.const_mul (Real.sqrt (2 * Real.pi))⁻¹
  refine h2.congr (ae_of_all _ fun x => ?_)
  rw [normPdf_eq]

lemma integral_normPdf : ∫ x, normPdf x = 1 := by
  have h : (∫ x : ℝ, Real.exp (-(1 / 2 : ℝ) * x ^ 2)) = Real.sqrt (Real.pi / (1 / 2)) :=
    integral_gaussian (1 / 2)
  have hfun : ∀ x : ℝ, normPdf x = (Real.sqrt (2 * Real.pi))⁻¹ * Real.exp (-(1 / 2 : ℝ) * x ^ 2) :=
    normPdf_eq
  calc ∫ x, normPdf x
      = ∫ x : ℝ, (Real.sqrt (2 * Real.pi))⁻¹ * Real.exp (-(1 / 2 : ℝ) * x ^ 2) := by
        exact integral_congr_ae (ae_of_all _ hfun)
    _ = (Real.sqrt (2 * Real.pi))⁻¹ * ∫ x : ℝ, Real.exp (-(1 / 2 : ℝ) * x ^ 2) :=
        integral_mul_left _ _
    _ = (Real.sqrt (2 * Real.pi))⁻¹ * Real.sqrt (2 * Real.pi) := by
        rw [h, show Real.pi / (1 / 2 : ℝ) = 2 * Real.pi from by ring]
    _ = 1 := inv_mul_cancel₀ (ne_of_gt sqrt_two_pi_pos)

lemma normCdf_nonneg (x : ℝ) : 0 ≤ normCdf x :=
  setIntegral_nonneg measurableSet_Iic fun t _ => (normPdf_pos t).le

lemma normCdf_le_one (x : ℝ) : normCdf x ≤ 1 := by
  rw [← integral_normPdf]
  exact setIntegral_le_integral integrable_normPdf (ae_of_all _ fun t => (normPdf_pos t).le)

lemma normCdf_sub_normCdf (a b : ℝ) :
    normCdf b - normCdf a = ∫ x in a..b, normPdf x :=
  intervalIntegral.integral_Iic_sub_Iic integrable_normPdf.integrableOn
    integrable_normPdf.integrableOn

lemma monotone_normCdf : Monotone normCdf := by
  intro a b hab
  have h := normCdf_sub_normCdf a b
  have h2 : 0 ≤ ∫ x in a..b, normPdf x :=
    intervalIntegral.integral_nonneg hab fun t _ => (normPdf_pos t).le
  linarith

lemma normCdf_neg (x : ℝ) : normCdf (-x) = 1 - normCdf x := by
  have h1 : (∫ t in Iic (-x), normPdf (-t)) = ∫ t in Ioi x, normPdf t := by
    have := integral_comp_neg_Iic (-x) normPdf
    simpa using this
  have h2 : normCdf (-x) = ∫ t in Ioi x, normPdf t := by
    rw [← h1]
    unfold normCdf
    exact setIntegral_congr_fun measurableSet_Iic fun t _ => (normPdf_even t).symm
  have h3 : normCdf x + (∫ t in Ioi x, normPdf t) = 1 := by
    rw [← integral_normPdf]
    exact intervalIntegral.integral_Iic_add_Ioi integrable_normPdf.integrableOn
      integrable_normPdf.integrableOn
  linarith

lemma hasDerivAt_normCdf (x : ℝ) : HasDerivAt normCdf (normPdf x) x := by
  have key : ∀ u : ℝ, normCdf u = normCdf 0 + ∫ t in (0 : ℝ)..u, normPdf t := by
    intro u
    have h := normCdf_sub_normCdf 0 u
    linarith
  have h2 : HasDerivAt (fun u => ∫ t in (0 : ℝ)..u, normPdf t) (normPdf x) x :=
    intervalIntegral.integral_hasDerivAt_right
      (integrable_normPdf.intervalIntegrable)
      continuous_normPdf.aestronglyMeasurable.stronglyMeasurableAtFilter
      continuous_normPdf.continuousAt
  have h3 := h2.const_add (normCdf 0)
  have hfun : (fun u => normCdf 0 + ∫ t in (0 : ℝ)..u, normPdf t) = normCdf := by
    funext u
    exact (key u).symm
  rwa [hfun] at h3

/-- Shared derivation: the standardized log-moneyness term
`d1 = (ln(S/K) + (r + 0.5·sigma²)·T) / (sigma·√T)`. -/
noncomputable def d1 (S K T r sigma : ℝ) : ℝ :=
  (Real.log (S / K) + (r + 0.5 * sigma ^ 2) * T) / (sigma * Real.sqrt T)

/-- Shared derivation: `d2 = d1 − sigma·√T`. -/
noncomputable def d2 (S K T r sigma : ℝ) : ℝ :=
  d1 S K T r sigma - sigma * Real.sqrt T

/-- The Pricer: European option price under the Black-Scholes model.
An out-of-range `option_type` is the `ValueError` of the reference,
embedded as `Except.error`.  The `option_type` argument defaults to
`"Call"` when omitted, as in the reference signature. -/
noncomputable def black_scholes (S K T r sigma : ℝ)
    (option_type : optParam String ("Call")) : Except String ℝ :=
  if option_type = "Call" then
    Except.ok (S * normCdf (d1 S K T r sigma) -
      K * Real.exp (-r * T) * normCdf (d2 S K T r sigma))
  else if option_type = "Put" then
    Except.ok (K * Real.exp (-r * T) * normCdf (-d2 S K T r sigma) -
      S * normCdf (-d1 S K T r sigma))
  else
    Except.error ("option_type must be Call or Put.")

/-- Degenerate-input guard of the Sensitivity Engine: the elementwise
`np.where(x == 0, 1e-10, x)` of the reference, on one element. -/
noncomputable def guardZero (x : ℝ) : ℝ :=
  if x = 0 then 1e-10 else x

/-- The Sensitivity Engine: the four Greeks `(delta, gamma, theta, vega)`.
A zero `sigma` or `T` is replaced by `1e-10` before `d1`/`d2` are formed
(the reference's `np.where(· == 0, 1e-10, ·)` guard); the guarded values
are then used throughout, including in the discount factor. -/
noncomputable def option_greeks (S K T r sigma : ℝ)
    (option_type : optParam String ("Call")) : Except String (ℝ × ℝ × ℝ × ℝ) :=
  let sigmaG : ℝ := guardZero sigma
  let TG : ℝ := guardZero T
  if option_type = "Call" then
    Except.ok (normCdf (d1 S K TG r sigmaG),
      normPdf (d1 S K TG r sigmaG) / (S * sigmaG * Real.sqrt TG),
      (-S * normPdf (d1 S K TG r sigmaG) * sigmaG) / (2 * Real.sqrt TG) -
        r * K * Real.exp (-r * TG) * normCdf (d2 S K TG r sigmaG),
      S * normPdf (d1 S K TG r sigmaG) * Real.sqrt TG)
  else if option_type = "Put" then
    Except.ok (normCdf (d1 S K TG r sigmaG) - 1,
      normPdf (d1 S K TG r sigmaG) / (S * sigmaG * Real.sqrt TG),
      (-S * normPdf (d1 S K TG r sigmaG) * sigmaG) / (2 * Real.sqrt TG) +
        r * K * Real.exp (-r * TG) * normCdf (-d2 S K TG r sigmaG),
      S * normPdf (d1 S K TG r sigmaG) * Real.sqrt TG)
  else
    Except.error ("option_type must be Call or Put.")

lemma guardZero_of_ne {x : ℝ} (hx : x ≠ 0) : guardZero x = x := if_neg hx

lemma guardZero_zero : guardZero 0 = 1e-10 := if_pos rfl

lemma black_scholes_call_eq (S K T r sigma : ℝ) :
    black_scholes S K T r sigma ("Call") =
      Except.ok (S * normCdf (d1 S K T r sigma) -
        K * Real.exp (-r * T) * normCdf (d2 S K T r sigma)) := rfl

lemma black_scholes_put_eq (S K T r sigma : ℝ) :
    black_scholes S K T r sigma ("Put") =
      Except.ok (K * Real.exp (-r * T) * normCdf (-d2 S K T r sigma) -
        S * normCdf (-d1 S K T r sigma)) := rfl

lemma option_greeks_call_eq (S K T r sigma : ℝ) :
    option_greeks S K T r sigma ("Call") =
      Except.ok (normCdf (d1 S K (guardZero T) r (guardZero sigma)),
        normPdf (d1 S K (guardZero T) r (guardZero sigma)) /
          (S * guardZero sigma * Real.sqrt (guardZero T)),
        (-S * normPdf (d1 S K (guardZero T) r (guardZero sigma)) * guardZero sigma) /
            (2 * Real.sqrt (guardZero T)) -
          r * K * Real.exp (-r * guardZero T) *
            normCdf (d2 S K (guardZero T) r (guardZero sigma)),
        S * normPdf (d1 S K (guardZero T) r (guardZero sigma)) *
          Real.sqrt (guardZero T)) := rfl

lemma option_greeks_put_eq (S K T r sigma : ℝ) :
    option_greeks S K T r sigma ("Put") =
      Except.ok (normCdf (d1 S K (guardZero T) r (guardZero sigma)) - 1,
        normPdf (d1 S K (guardZero T) r (guardZero sigma)) /
          (S * guardZero sigma * Real.sqrt (guardZero T)),
        (-S * normPdf (d1 S K (guardZero T) r (guardZero sigma)) * guardZero sigma) /
            (2 * Real.sqrt (guardZero T)) +
          r * K * Real.exp (-r * guardZero T) *
            normCdf (-d2 S K (guardZero T) r (guardZero sigma)),
        S * normPdf (d1 S K (guardZero T) r (guardZero sigma)) *
          Real.sqrt (guardZero T)) := rfl

lemma option_greeks_call_valid (S K T r sigma : ℝ) (hT : T ≠ 0) (hsigma : sigma ≠ 0) :
    option_greeks S K T r sigma ("Call") =
      Except.ok (normCdf (d1 S K T r sigma),
        normPdf (d1 S K T r sigma) / (S * sigma * Real.sqrt T),
        (-S * normPdf (d1 S K T r sigma) * sigma) / (2 * Real.sqrt T) -
          r * K * Real.exp (-r * T) * normCdf (d2 S K T r sigma),
        S * normPdf (d1 S K T r sigma) * Real.sqrt T) := by
  rw [option_greeks_call_eq, guardZero_of_ne hT, guardZero_of_ne hsigma]

lemma option_greeks_put_valid (S K T r sigma : ℝ) (hT : T ≠ 0) (hsigma : sigma ≠ 0) :
    option_greeks S K T r sigma ("Put") =
      Except.ok (normCdf (d1 S K T r sigma) - 1,
        normPdf (d1 S K T r sigma) / (S * sigma * Real.sqrt T),
        (-S * normPdf (d1 S K T r sigma) * sigma) / (2 * Real.sqrt T) +
          r * K * Real.exp (-r * T) * normCdf (-d2 S K T r sigma),
        S * normPdf (d1 S K T r sigma) * Real.sqrt T) := by
  rw [option_greeks_put_eq, guardZero_of_ne hT, guardZero_of_ne hsigma]

lemma bs_error_iff (S K T r sigma : ℝ) (kind : String) :
    black_scholes S K T r sigma kind = Except.error ("option_type must be Call or Put.") ↔
      (kind ≠ "Call" ∧ kind ≠ "Put") := by
  by_cases h1 : kind = "Call"
  · subst h1
    simp [black_scholes_call_eq]
  · by_cases h2 : kind = "Put"
    · subst h2
      simp [black_scholes_put_eq]
    · simp [black_scholes, h1, h2]

lemma greeks_error_iff (S K T r sigma : ℝ) (kind : String) :
    option_greeks S K T r sigma kind = Except.error ("option_type must be Call or Put.") ↔
      (kind ≠ "Call" ∧ kind ≠ "Put") := by
  by_cases h1 : kind = "Call"
  · subst h1
    simp [option_greeks_call_eq]
  · by_cases h2 : kind = "Put"
    · subst h2
      simp [option_greeks_put_eq]
    · simp [option_greeks, h1, h2]

/-- C1: for every input with S > 0, K > 0, T > 0, sigma > 0, the Pricer returns
`S·Φ(d1) − K·e^(−rT)·Φ(d2)` when kind = Call and `K·e^(−rT)·Φ(−d2) − S·Φ(−d1)`
when kind = Put, where `d1 = (ln(S/K) + (r + 0.5·σ²)·T)/(σ·√T)`,
`d2 = d1 − σ·√T`, and `Φ` is the standard normal CDF. -/
theorem C1_pricer_closed_form (S K T r sigma : ℝ)
    (hS : 0 < S) (hK : 0 < K) (hT : 0 < T) (hsigma : 0 < sigma) :
    black_scholes S K T r sigma ("Call") =
      Except.ok (S * normCdf ((Real.log (S / K) + (r + 0.5 * sigma ^ 2) * T) /
            (sigma * Real.sqrt T)) -
        K * Real.exp (-r * T) *
          normCdf ((Real.log (S / K) + (r + 0.5 * sigma ^ 2) * T) /
              (sigma * Real.sqrt T) - sigma * Real.sqrt T)) ∧
    black_scholes S K T r sigma ("Put") =
      Except.ok (K * Real.exp (-r * T) *
          normCdf (-((Real.log (S / K) + (r + 0.5 * sigma ^ 2) * T) /
              (sigma * Real.sqrt T) - sigma * Real.sqrt T)) -
        S * normCdf (-((Real.log (S / K) + (r + 0.5 * sigma ^ 2) * T) /
            (sigma * Real.sqrt T)))) :=
  ⟨black_scholes_call_eq S K T r sigma, black_scholes_put_eq S K T r sigma⟩

/-- C1 witness: the closed form instantiated at
S = 100, K = 100, T = 1, r = 0.05, sigma = 0.2. -/
theorem C1_pricer_closed_form_witness :
    black_scholes 100 100 1 0.05 0.2 ("Call") =
      Except.ok (100 * normCdf (d1 100 100 1 0.05 0.2) -
        100 * Real.exp (-0.05 * 1) * normCdf (d2 100 100 1 0.05 0.2)) :=
  (C1_pricer_closed_form 100 100 1 0.05 0.2 (by norm_num) (by norm_num)
    (by norm_num) (by norm_num)).1

/-- C2: for every input with S > 0, K > 0, T > 0, sigma > 0, the Call price
minus the Put price equals `S − K·e^(−rT)` (put-call parity), exactly over ℝ
and hence within any floating-point tolerance. -/
theorem C2_put_call_parity (S K T r sigma : ℝ)
    (hS : 0 < S) (hK : 0 < K) (hT : 0 < T) (hsigma : 0 < sigma) :
    ∃ c p : ℝ, black_scholes S K T r sigma ("Call") = Except.ok c ∧
      black_scholes S K T r sigma ("Put") = Except.ok p ∧
      c - p = S - K * Real.exp (-r * T) := by
  refine ⟨_, _, black_scholes_call_eq S K T r sigma,
    black_scholes_put_eq S K T r sigma, ?_⟩
  rw [normCdf_neg, normCdf_neg]
  ring

/-- C2 witness: put-call parity at S = 100, K = 100, T = 1, r = 0.05,
sigma = 0.2. -/
theorem C2_put_call_parity_witness :
    ∃ c p : ℝ, black_scholes 100 100 1 0.05 0.2 ("Call") = Except.ok c ∧
      black_scholes 100 100 1 0.05 0.2 ("Put") = Except.ok p ∧
      c - p = 100 - 100 * Real.exp (-0.05 * 1) :=
  C2_put_call_parity 100 100 1 0.05 0.2 (by norm_num) (by norm_num)
    (by norm_num) (by norm_num)

/-- C3: the Sensitivity Engine substitutes 1e-10 for a zero sigma or T before
computing d1 and d2 (so `greeks` at T = 0 agrees with `greeks` at T = 1e-10,
and likewise for sigma), and at S = 100, K = 100, T = 0, r = 0.05,
sigma = 0.2, kind = Call it returns an ordinary tuple of reals, with the
guarded gamma and vega moreover strictly positive (the divisions are by
nonzero denominators, the real-number reading of finite, non-NaN). -/
theorem C3_degenerate_guard :
    (∀ (S K r sigma : ℝ) (kind : String),
      option_greeks S K 0 r sigma kind = option_greeks S K (1e-10) r sigma kind) ∧
    (∀ (S K T r : ℝ) (kind : String),
      option_greeks S K T r 0 kind = option_greeks S K T r (1e-10) kind) ∧
    (∃ delta gamma theta vega : ℝ,
      option_greeks 100 100 0 0.05 0.2 ("Call") =
        Except.ok (delta, gamma, theta, vega) ∧ 0 < gamma ∧ 0 < vega) := by
  have hg : guardZero (0 : ℝ) = guardZero (1e-10 : ℝ) := by
    rw [guardZero_zero, guardZero_of_ne (by norm_num)]
  refine ⟨fun S K r sigma kind => ?_, fun S K T r kind => ?_, ?_⟩
  · unfold option_greeks
    rw [hg]
  · unfold option_greeks
    rw [hg]
  · refine ⟨_, _, _, _, option_greeks_call_eq 100 100 0 0.05 0.2, ?_, ?_⟩
    · rw [guardZero_zero, guardZero_of_ne (by norm_num : (0.2 : ℝ) ≠ 0)]
      exact div_pos (normPdf_pos _) (by positivity)
    · rw [guardZero_zero, guardZero_of_ne (by norm_num : (0.2 : ℝ) ≠ 0)]
      exact mul_pos (mul_pos (by norm_num) (normPdf_pos _)) (by positivity)

/-- C5: both the Pricer and the Sensitivity Engine fail with the
invalid-argument error exactly when kind is outside {Call, Put}; in
particular both fail at kind = Straddle. -/
theorem C5_invalid_kind (S K T r sigma : ℝ) (kind : String) :
    ((kind ≠ "Call" ∧ kind ≠ "Put") ↔
      black_scholes S K T r sigma kind =
        Except.error ("option_type must be Call or Put.")) ∧
    ((kind ≠ "Call" ∧ kind ≠ "Put") ↔
      option_greeks S K T r sigma kind =
        Except.error ("option_type must be Call or Put.")) ∧
    black_scholes 100 100 1 0.05 0.2 ("Straddle") =
      Except.error ("option_type must be Call or Put.") ∧
    option_greeks 100 100 1 0.05 0.2 ("Straddle") =
      Except.error ("option_type must be Call or Put.") :=
  ⟨(bs_error_iff S K T r sigma kind).symm,
    (greeks_error_iff S K T r sigma kind).symm, rfl, rfl⟩

/-- C6: for every input with S > 0, K > 0, T > 0, sigma > 0 (so the guard
leaves sigma and T unchanged), the Sensitivity Engine returns
`delta = Φ(d1)` (Call) or `Φ(d1) − 1` (Put), `gamma = φ(d1)/(S·σ·√T)`,
`theta = −S·φ(d1)·σ/(2√T) − r·K·e^(−rT)·Φ(d2)` (Call) or
`−S·φ(d1)·σ/(2√T) + r·K·e^(−rT)·Φ(−d2)` (Put), and `vega = S·φ(d1)·√T`. -/
theorem C6_greeks_closed_form (S K T r sigma : ℝ)
    (hS : 0 < S) (hK : 0 < K) (hT : 0 < T) (hsigma : 0 < sigma) :
    option_greeks S K T r sigma ("Call") =
      Except.ok (normCdf (d1 S K T r sigma),
        normPdf (d1 S K T r sigma) / (S * sigma * Real.sqrt T),
        (-S * normPdf (d1 S K T r sigma) * sigma) / (2 * Real.sqrt T) -
          r * K * Real.exp (-r * T) * normCdf (d2 S K T r sigma),
        S * normPdf (d1 S K T r sigma) * Real.sqrt T) ∧
    option_greeks S K T r sigma ("Put") =
      Except.ok (normCdf (d1 S K T r sigma) - 1,
        normPdf (d1 S K T r sigma) / (S * sigma * Real.sqrt T),
        (-S * normPdf (d1 S K T r sigma) * sigma) / (2 * Real.sqrt T) +
          r * K * Real.exp (-r * T) * normCdf (-d2 S K T r sigma),
        S * normPdf (d1 S K T r sigma) * Real.sqrt T) :=
  ⟨option_greeks_call_valid S K T r sigma hT.ne' hsigma.ne',
    option_greeks_put_valid S K T r sigma hT.ne' hsigma.ne'⟩

/-- C6 witness: the Greek closed forms instantiated at
S = 100, K = 100, T = 1, r = 0.05, sigma = 0.2 (Call component). -/
theorem C6_greeks_closed_form_witness :
    option_greeks 100 100 1 0.05 0.2 ("Call") =
      Except.ok (normCdf (d1 100 100 1 0.05 0.2),
        normPdf (d1 100 100 1 0.05 0.2) / (100 * 0.2 * Real.sqrt 1),
        (-100 * normPdf (d1 100 100 1 0.05 0.2) * 0.2) / (2 * Real.sqrt 1) -
          0.05 * 100 * Real.exp (-0.05 * 1) * normCdf (d2 100 100 1 0.05 0.2),
        100 * normPdf (d1 100 100 1 0.05 0.2) * Real.sqrt 1) :=
  (C6_greeks_closed_form 100 100 1 0.05 0.2 (by norm_num) (by norm_num)
    (by norm_num) (by norm_num)).1

/-- C7: gamma and vega are kind-independent: for every set of numeric
parameters, the (gamma, vega) pair computed for Call equals the one
computed for Put. -/
theorem C7_gamma_vega_kind_independent (S K T r sigma : ℝ) :
    (option_greeks S K T r sigma ("Call")).map (fun g => (g.2.1, g.2.2.2)) =
      (option_greeks S K T r sigma ("Put")).map (fun g => (g.2.1, g.2.2.2)) := by
  rw [option_greeks_call_eq, option_greeks_put_eq]
  rfl

/-- C9: for every valid input (S > 0, K > 0, T > 0, sigma > 0), the delta
returned by the Sensitivity Engine lies in [0, 1] for Call and in [−1, 0]
for Put. -/
theorem C9_delta_bounds (S K T r sigma : ℝ)
    (hS : 0 < S) (hK : 0 < K) (hT : 0 < T) (hsigma : 0 < sigma) :
    (∀ g : ℝ × ℝ × ℝ × ℝ, option_greeks S K T r sigma ("Call") = Except.ok g →
      0 ≤ g.1 ∧ g.1 ≤ 1) ∧
    (∀ g : ℝ × ℝ × ℝ × ℝ, option_greeks S K T r sigma ("Put") = Except.ok g →
      -1 ≤ g.1 ∧ g.1 ≤ 0) := by
  refine ⟨fun g hg => ?_, fun g hg => ?_⟩
  · rw [option_greeks_call_valid S K T r sigma hT.ne' hsigma.ne'] at hg
    obtain rfl := Except.ok.inj hg
    exact ⟨normCdf_nonneg _, normCdf_le_one _⟩
  · rw [option_greeks_put_valid S K T r sigma hT.ne' hsigma.ne'] at hg
    obtain rfl := Except.ok.inj hg
    have h1 := normCdf_nonneg (d1 S K T r sigma)
    have h2 := normCdf_le_one (d1 S K T r sigma)
    constructor
    · show -1 ≤ normCdf (d1 S K T r sigma) - 1
      linarith
    · show normCdf (d1 S K T r sigma) - 1 ≤ 0
      linarith

/-- C9 witness: delta bounds at S = 100, K = 100, T = 1, r = 0.05,
sigma = 0.2, applied to the Call branch value. -/
theorem C9_delta_bounds_witness :
    0 ≤ normCdf (d1 100 100 1 0.05 0.2) ∧ normCdf (d1 100 100 1 0.05 0.2) ≤ 1 :=
  (C9_delta_bounds 100 100 1 0.05 0.2 (by norm_num) (by norm_num) (by norm_num)
      (by norm_num)).1
    (normCdf (d1 100 100 1 0.05 0.2),
      normPdf (d1 100 100 1 0.05 0.2) / (100 * 0.2 * Real.sqrt 1),
      (-100 * normPdf (d1 100 100 1 0.05 0.2) * 0.2) / (2 * Real.sqrt 1) -
        0.05 * 100 * Real.exp (-0.05 * 1) * normCdf (d2 100 100 1 0.05 0.2),
      100 * normPdf (d1 100 100 1 0.05 0.2) * Real.sqrt 1)
    (option_greeks_call_valid 100 100 1 0.05 0.2 (by norm_num) (by norm_num))

/-- C10: when the kind argument is omitted, both functions default it to
Call and compute the Call-branch result. -/
theorem C10_default_kind (S K T r sigma : ℝ) :
    black_scholes S K T r sigma = black_scholes S K T r sigma ("Call") ∧
    option_greeks S K T r sigma = option_greeks S K T r sigma ("Call") ∧
    black_scholes S K T r sigma =
      Except.ok (S * normCdf (d1 S K T r sigma) -
        K * Real.exp (-r * T) * normCdf (d2 S K T r sigma)) ∧
    (option_greeks S K T r sigma).map (fun g => g.1) =
      Except.ok (normCdf (d1 S K (guardZero T) r (guardZero sigma))) :=
  ⟨rfl, rfl, black_scholes_call_eq S K T r sigma, by rw [option_greeks_call_eq]; rfl⟩

lemma hasDerivAt_d1_in_S (K T r sigma S : ℝ) (hK : 0 < K) (hT : 0 < T)
    (hsigma : 0 < sigma) (hS : 0 < S) :
    HasDerivAt (fun s => d1 s K T r sigma) (1 / (S * (sigma * Real.sqrt T))) S := by
  have hsqT : 0 < Real.sqrt T := Real.sqrt_pos.mpr hT
  have hne : S / K ≠ 0 := by positivity
  have hdiv : HasDerivAt (fun s : ℝ => s / K) (1 / K) S := by
    simpa using (hasDerivAt_id S).div_const K
  have hlog : HasDerivAt (fun s : ℝ => Real.log (s / K)) ((1 / K) / (S / K)) S :=
    hdiv.log hne
  have h2 := (hlog.add_const ((r + 0.5 * sigma ^ 2) * T)).div_const (sigma * Real.sqrt T)
  have harg : (1 / K) / (S / K) / (sigma * Real.sqrt T) =
      1 / (S * (sigma * Real.sqrt T)) := by
    field_simp
  unfold d1
  rw [← harg]
  exact h2

lemma hasDerivAt_d2_in_S (K T r sigma S : ℝ) (hK : 0 < K) (hT : 0 < T)
    (hsigma : 0 < sigma) (hS : 0 < S) :
    HasDerivAt (fun s => d2 s K T r sigma) (1 / (S * (sigma * Real.sqrt T))) S := by
  unfold d2
  exact (hasDerivAt_d1_in_S K T r sigma S hK hT hsigma hS).sub_const (sigma * Real.sqrt T)

lemma discounted_pdf_identity (S K T r sigma : ℝ)
    (hS : 0 < S) (hK : 0 < K) (hT : 0 < T) (hsigma : 0 < sigma) :
    K * Real.exp (-r * T) * normPdf (d2 S K T r sigma) =
      S * normPdf (d1 S K T r sigma) := by
  have hsqT : 0 < Real.sqrt T := Real.sqrt_pos.mpr hT
  have hden : sigma * Real.sqrt T ≠ 0 := by positivity
  have hnum : d1 S K T r sigma * (sigma * Real.sqrt T) =
      Real.log (S / K) + (r + 0.5 * sigma ^ 2) * T := by
    unfold d1
    exact div_mul_cancel₀ _ hden
  have hb2 : (sigma * Real.sqrt T) ^ 2 = sigma ^ 2 * T := by
    rw [mul_pow, Real.sq_sqrt hT.le]
  have harg : -(d2 S K T r sigma ^ 2) / 2 =
      -(d1 S K T r sigma ^ 2) / 2 + (Real.log (S / K) + r * T) := by
    unfold d2
    linear_combination hnum - (1 / 2) * hb2
  have hSK : (0 : ℝ) < S / K := by positivity
  unfold normPdf
  rw [harg, Real.exp_add, Real.exp_add, Real.exp_log hSK, neg_mul, Real.exp_neg]
  field_simp
  ring

lemma hasDerivAt_call_in_S (K T r sigma : ℝ) (hK : 0 < K) (hT : 0 < T)
    (hsigma : 0 < sigma) (S : ℝ) (hS : 0 < S) :
    HasDerivAt (fun s => s * normCdf (d1 s K T r sigma) -
        K * Real.exp (-r * T) * normCdf (d2 s K T r sigma))
      (normCdf (d1 S K T r sigma)) S := by
  have hd1 := hasDerivAt_d1_in_S K T r sigma S hK hT hsigma hS
  have hd2 := hasDerivAt_d2_in_S K T r sigma S hK hT hsigma hS
  have hphi1 : HasDerivAt (fun s => normCdf (d1 s K T r sigma))
      (normPdf (d1 S K T r sigma) * (1 / (S * (sigma * Real.sqrt T)))) S :=
    (hasDerivAt_normCdf (d1 S K T r sigma)).comp S hd1
  have hphi2 : HasDerivAt (fun s => normCdf (d2 s K T r sigma))
      (normPdf (d2 S K T r sigma) * (1 / (S * (sigma * Real.sqrt T)))) S :=
    (hasDerivAt_normCdf (d2 S K T r sigma)).comp S hd2
  have h1 : HasDerivAt (fun s => s * normCdf (d1 s K T r sigma))
      (1 * normCdf (d1 S K T r sigma) +
        S * (normPdf (d1 S K T r sigma) * (1 / (S * (sigma * Real.sqrt T))))) S :=
    (hasDerivAt_id S).mul hphi1
  have h2 : HasDerivAt (fun s => K * Real.exp (-r * T) * normCdf (d2 s K T r sigma))
      (K * Real.exp (-r * T) *
        (normPdf (d2 S K T r sigma) * (1 / (S * (sigma * Real.sqrt T))))) S :=
    hphi2.const_mul (K * Real.exp (-r * T))
  have h3 := h1.sub h2
  have key := discounted_pdf_identity S K T r sigma hS hK hT hsigma
  have heq : 1 * normCdf (d1 S K T r sigma) +
      S * (normPdf (d1 S K T r sigma) * (1 / (S * (sigma * Real.sqrt T)))) -
      K * Real.exp (-r * T) *
        (normPdf (d2 S K T r sigma) * (1 / (S * (sigma * Real.sqrt T)))) =
      normCdf (d1 S K T r sigma) := by
    linear_combination (-(1 / (S * (sigma * Real.sqrt T)))) * key
  rwa [heq] at h3

lemma hasDerivAt_put_in_S (K T r sigma : ℝ) (hK : 0 < K) (hT : 0 < T)
    (hsigma : 0 < sigma) (S : ℝ) (hS : 0 < S) :
    HasDerivAt (fun s => K * Real.exp (-r * T) * normCdf (-d2 s K T r sigma) -
        s * normCdf (-d1 s K T r sigma))
      (-normCdf (-d1 S K T r sigma)) S := by
  have hd1 := hasDerivAt_d1_in_S K T r sigma S hK hT hsigma hS
  have hd2 := hasDerivAt_d2_in_S K T r sigma S hK hT hsigma hS
  have hphi1 : HasDerivAt (fun s => normCdf (-d1 s K T r sigma))
      (normPdf (-d1 S K T r sigma) * -(1 / (S * (sigma * Real.sqrt T)))) S :=
    (hasDerivAt_normCdf (-d1 S K T r sigma)).comp S hd1.neg
  have hphi2 : HasDerivAt (fun s => normCdf (-d2 s K T r sigma))
      (normPdf (-d2 S K T r sigma) * -(1 / (S * (sigma * Real.sqrt T)))) S :=
    (hasDerivAt_normCdf (-d2 S K T r sigma)).comp S hd2.neg
  have h1 : HasDerivAt (fun s => K * Real.exp (-r * T) * normCdf (-d2 s K T r sigma))
      (K * Real.exp (-r * T) *
        (normPdf (-d2 S K T r sigma) * -(1 / (S * (sigma * Real.sqrt T))))) S :=
    hphi2.const_mul (K * Real.exp (-r * T))
  have h2 : HasDerivAt (fun s => s * normCdf (-d1 s K T r sigma))
      (1 * normCdf (-d1 S K T r sigma) +
        S * (normPdf (-d1 S K T r sigma) * -(1 / (S * (sigma * Real.sqrt T))))) S :=
    (hasDerivAt_id S).mul hphi1
  have h3 := h1.sub h2
  have key := discounted_pdf_identity S K T r sigma hS hK hT hsigma
  have e1 := normPdf_even (d1 S K T r sigma)
  have e2 := normPdf_even (d2 S K T r sigma)
  have heq : K * Real.exp (-r * T) *
        (normPdf (-d2 S K T r sigma) * -(1 / (S * (sigma * Real.sqrt T)))) -
      (1 * normCdf (-d1 S K T r sigma) +
        S * (normPdf (-d1 S K T r sigma) * -(1 / (S * (sigma * Real.sqrt T))))) =
      -normCdf (-d1 S K T r sigma) := by
    linear_combination (1 / (S * (sigma * Real.sqrt T))) * S * e1 -
      (1 / (S * (sigma * Real.sqrt T))) * (K * Real.exp (-r * T)) * e2 -
      (1 / (S * (sigma * Real.sqrt T))) * key
  rwa [heq] at h3

lemma call_monotoneOn (K T r sigma : ℝ) (hK : 0 < K) (hT : 0 < T)
    (hsigma : 0 < sigma) :
    MonotoneOn (fun s => s * normCdf (d1 s K T r sigma) -
      K * Real.exp (-r * T) * normCdf (d2 s K T r sigma)) (Ioi (0 : ℝ)) := by
  apply monotoneOn_of_deriv_nonneg (convex_Ioi 0)
  · intro x hx
    exact (hasDerivAt_call_in_S K T r sigma hK hT hsigma x
      (mem_Ioi.mp hx)).continuousAt.continuousWithinAt
  · intro x hx
    rw [interior_Ioi] at hx
    exact (hasDerivAt_call_in_S K T r sigma hK hT hsigma x
      (mem_Ioi.mp hx)).differentiableAt.differentiableWithinAt
  · intro x hx
    rw [interior_Ioi] at hx
    rw [(hasDerivAt_call_in_S K T r sigma hK hT hsigma x (mem_Ioi.mp hx)).deriv]
    exact normCdf_nonneg _

lemma put_antitoneOn (K T r sigma : ℝ) (hK : 0 < K) (hT : 0 < T)
    (hsigma : 0 < sigma) :
    AntitoneOn (fun s => K * Real.exp (-r * T) * normCdf (-d2 s K T r sigma) -
      s * normCdf (-d1 s K T r sigma)) (Ioi (0 : ℝ)) := by
  apply antitoneOn_of_deriv_nonpos (convex_Ioi 0)
  · intro x hx
    exact (hasDerivAt_put_in_S K T r sigma hK hT hsigma x
      (mem_Ioi.mp hx)).continuousAt.continuousWithinAt
  · intro x hx
    rw [interior_Ioi] at hx
    exact (hasDerivAt_put_in_S K T r sigma hK hT hsigma x
      (mem_Ioi.mp hx)).differentiableAt.differentiableWithinAt
  · intro x hx
    rw [interior_Ioi] at hx
    rw [(hasDerivAt_put_in_S K T r sigma hK hT hsigma x (mem_Ioi.mp hx)).deriv]
    exact neg_nonpos_of_nonneg (normCdf_nonneg _)

/-- C8: for fixed K > 0, T > 0, r, sigma > 0 the Call price is non-decreasing
and the Put price is non-increasing as functions of S > 0. -/
theorem C8_price_monotonicity_in_S (K T r sigma S1 S2 : ℝ)
    (hK : 0 < K) (hT : 0 < T) (hsigma : 0 < sigma)
    (hS1 : 0 < S1) (hS12 : S1 ≤ S2) :
    (∃ c1 c2 : ℝ, black_scholes S1 K T r sigma ("Call") = Except.ok c1 ∧
      black_scholes S2 K T r sigma ("Call") = Except.ok c2 ∧ c1 ≤ c2) ∧
    (∃ p1 p2 : ℝ, black_scholes S1 K T r sigma ("Put") = Except.ok p1 ∧
      black_scholes S2 K T r sigma ("Put") = Except.ok p2 ∧ p2 ≤ p1) := by
  have hS2 : 0 < S2 := lt_of_lt_of_le hS1 hS12
  constructor
  · refine ⟨_, _, black_scholes_call_eq S1 K T r sigma,
      black_scholes_call_eq S2 K T r sigma, ?_⟩
    exact call_monotoneOn K T r sigma hK hT hsigma
      (mem_Ioi.mpr hS1) (mem_Ioi.mpr hS2) hS12
  · refine ⟨_, _, black_scholes_put_eq S1 K T r sigma,
      black_scholes_put_eq S2 K T r sigma, ?_⟩
    exact put_antitoneOn K T r sigma hK hT hsigma
      (mem_Ioi.mpr hS1) (mem_Ioi.mpr hS2) hS12

/-- C8 witness: monotonicity at K = 100, T = 1, r = 0.05, sigma = 0.2,
S1 = 100 ≤ S2 = 110. -/
theorem C8_price_monotonicity_in_S_witness :
    (∃ c1 c2 : ℝ, black_scholes 100 100 1 0.05 0.2 ("Call") = Except.ok c1 ∧
      black_scholes 110 100 1 0.05 0.2 ("Call") = Except.ok c2 ∧ c1 ≤ c2) ∧
    (∃ p1 p2 : ℝ, black_scholes 100 100 1 0.05 0.2 ("Put") = Except.ok p1 ∧
      black_scholes 110 100 1 0.05 0.2 ("Put") = Except.ok p2 ∧ p2 ≤ p1) :=
  C8_price_monotonicity_in_S 100 1 0.05 0.2 100 110 (by norm_num) (by norm_num)
    (by norm_num) (by norm_num) (by norm_num)
